import Mathlib

/-!
Verification of the short-uid generator (src/src/short-uid.ts).

The embedding translates the TypeScript class `ShortUID` into pure Lean
definitions.  The static dictionary is built from `DICT_RANGES` exactly as the
source does (digits, then lowercase, then uppercase, following the object's
insertion order) and is then shuffled with `sort(() => Math.random() - 0.5)`;
the only property that comparator shuffle guarantees is that the result is some
permutation of the unshuffled array, so the shuffled dictionary is modelled as
a structure bundling a character list with a proof that it is a permutation of
the unshuffled `baseDict`.  Instance state (`counter`, `debug`) is explicit
state passing; `Math.random()` draws are an oracle `Nat → ℚ` of values in
`[0,1)`; the single `throw` is an `Except.error`.
-/

/-- Characters of one half-open code-point range `[lo, hi)`, in order, as
produced by the `for (let dictIndex = lowerBound; dictIndex < upperBound; ...)`
loop pushing `String.fromCharCode(dictIndex)`. -/
def dictRangeChars (lo hi : Nat) : List Char :=
  (List.range (hi - lo)).map (fun i => Char.ofNat (lo + i))

/-- The dictionary before the shuffle: `DICT_RANGES` iterated in insertion
order — digits `[48,58)`, lowerCase `[97,123)`, upperCase `[65,91)`. -/
def baseDict : List Char :=
  dictRangeChars 48 58 ++ dictRangeChars 97 123 ++ dictRangeChars 65 91

/-- The shared static dictionary after `dict.sort(() => Math.random() - 0.5)`:
some permutation of `baseDict` (the random comparator makes the order
unspecified, but the elements are preserved). -/
structure Dict where
  chars : List Char
  perm : chars.Perm baseDict

/-- A concrete instance of the shuffled dictionary (the identity shuffle). -/
def sampleDict : Dict :=
  ⟨baseDict, List.Perm.refl baseDict⟩

/-- Cached `ShortUID.dictLength = ShortUID.dict.length`. -/
def getDictLength (d : Dict) : Nat := d.chars.length

/-- Pure content of `getDict()` (the heap-level copy is modelled separately by
`DictStore` below). -/
def getDict (d : Dict) : List Char := d.chars

/-- Per-instance state: `this.counter` and `this.debug`. -/
structure ShortUID where
  counter : Nat
  debug : Bool

/-- Constructor body: `this.counter = 0; this.debug = options.debug || false`
(`none` models an absent `debug` option). -/
def mkGen (debugOpt : Option Bool) : ShortUID :=
  { counter := 0, debug := debugOpt.getD false }

/-- Accessor `getCounter()`. -/
def getCounter (s : ShortUID) : Nat := s.counter

/-- The `while (true)` loop of `counterUUID`: divide `counterDiv` by the
dictionary length, append `dict[counterRem]`, stop when the quotient hits 0.
The loop body runs at least once, so value 0 yields the single character
`dict[0]`. -/
def counterLoop (d : Dict) (counterDiv : Nat) : List Char :=
  if h : counterDiv / d.chars.length = 0 then
    [d.chars.getD (counterDiv % d.chars.length) ' ']
  else
    d.chars.getD (counterDiv % d.chars.length) ' ' ::
      counterLoop d (counterDiv / d.chars.length)
termination_by counterDiv
decreasing_by
  have hlen : d.chars.length = 62 := d.perm.length_eq.trans (by decide)
  have hpos : 0 < counterDiv := by
    rcases Nat.eq_zero_or_pos counterDiv with h0 | h0
    · subst h0
      exact absurd (Nat.zero_div _) h
    · exact h0
  exact Nat.div_lt_self hpos (by omega)

/-- Method `counterUUID()`: encode the current counter with `counterLoop`,
increment the counter, return the id. -/
def counterUUID (d : Dict) (s : ShortUID) : String × ShortUID :=
  (String.mk (counterLoop d s.counter), { s with counter := s.counter + 1 })

/-- Method `resetCounter()`: `this.counter = 0` (log output modelled later). -/
def resetCounter (s : ShortUID) : ShortUID :=
  { s with counter := 0 }

/-- The length argument of `randomUUID` as a caller can supply it in JS:
omitted / explicitly `undefined` (both hit the parameter default), `null`, or
a number (possibly non-integer, hence `ℚ`). -/
inductive LenArg where
  | undef : LenArg
  | null : LenArg
  | num (q : ℚ) : LenArg
deriving DecidableEq

/-- Static `DEFAULT_RANDOM_ID_LEN = 6`. -/
def DEFAULT_RANDOM_ID_LEN : ℚ := 6

/-- One random index: `Math.floor(Math.random() * dictLength) % dictLength`,
where `x` is the `Math.random()` draw (a value in `[0,1)`). -/
def randomIndex (d : Dict) (x : ℚ) : Nat :=
  (Int.floor (x * (d.chars.length : ℚ))).toNat % d.chars.length

/-- The `for (let idIndex = 0; idIndex < uuidLength; idIndex++)` loop of
`randomUUID`: the loop counter is an integer but the bound `uuidLength` may be
any rational, so iteration continues while `(idIndex : ℚ) < uuidLength`. -/
def randomLoop (d : Dict) (draws : Nat → ℚ) (uuidLength : ℚ) (idIndex : Nat) :
    List Char :=
  if h : (idIndex : ℚ) < uuidLength then
    d.chars.getD (randomIndex d (draws idIndex)) ' ' ::
      randomLoop d draws uuidLength (idIndex + 1)
  else []
termination_by (Int.ceil uuidLength - idIndex).toNat
decreasing_by
  have hi : (idIndex : ℤ) < Int.ceil uuidLength := by
    rw [Int.lt_ceil]
    exact_mod_cast h
  omega

/-- The parameter default `uuidLength = DEFAULT_RANDOM_ID_LEN`: an omitted or
explicitly `undefined` argument becomes the default length. -/
def defaultedLen (arg : LenArg) : LenArg :=
  match arg with
  | .undef => .num DEFAULT_RANDOM_ID_LEN
  | a => a

/-- Method `randomUUID(uuidLength = DEFAULT_RANDOM_ID_LEN)`: after the
parameter default, `uuidLength == null` (loose equality, matching `null` and
`undefined`) or `uuidLength < 1` throws; else the id is assembled by
`randomLoop` from index 0. -/
def randomUUID (d : Dict) (draws : Nat → ℚ) (arg : LenArg) :
    Except String String :=
  match defaultedLen arg with
  | .undef => Except.error "Invalid UUID Length Provided"
  | .null => Except.error "Invalid UUID Length Provided"
  | .num q =>
    if q < 1 then Except.error "Invalid UUID Length Provided"
    else Except.ok (String.mk (randomLoop d draws q 0))

/-- The ambient `console` capability that `log` reaches through optional
chaining `console?.log?.(...)`: the whole object may be absent, the object may
lack a `log` member, or both may be present. -/
inductive ConsoleCap where
  | absent : ConsoleCap
  | noLog : ConsoleCap
  | present : ConsoleCap
deriving DecidableEq

/-- Method `log(message)`: always builds the prefixed message, then emits it
only when `this.debug` is set and the console capability is fully present;
optional chaining silently skips the call otherwise.  The returned list is the
sequence of lines actually emitted; the function is total, so the call can
never raise. -/
def logFn (cap : ConsoleCap) (debugFlag : Bool) (message : String) :
    List String :=
  if debugFlag then
    match cap with
    | .present => ["[frugal-id] " ++ message]
    | _ => []
  else []

/-- Constructor with its log call:
`this.log("Generator created with Dictionary Size " + dictLength)`. -/
def mkShortUID (d : Dict) (cap : ConsoleCap) (debugOpt : Option Bool) :
    ShortUID × List String :=
  ((mkGen debugOpt),
   logFn cap (mkGen debugOpt).debug
     ("Generator created with Dictionary Size " ++ toString (getDictLength d)))

/-- The `resetCounter` method with its log call. -/
def resetCounterOp (cap : ConsoleCap) (s : ShortUID) : ShortUID × List String :=
  (resetCounter s, logFn cap s.debug "Counter reset to 0")

/-- N successive `counterUUID()` calls on one instance, collecting the ids. -/
def runCounter (d : Dict) (s : ShortUID) : Nat → List String × ShortUID
  | 0 => ([], s)
  | n + 1 =>
    (((counterUUID d s).1 :: (runCounter d (counterUUID d s).2 n).1),
     (runCounter d (counterUUID d s).2 n).2)

/-- The mathematical least-significant-digit-first base-62 digit string of a
counter value: Mathlib's `Nat.digits`, except that value 0 is rendered as the
single digit 0 (the source loop body runs at least once). -/
def lsdDigits (v : Nat) : List Nat :=
  if v = 0 then [0] else Nat.digits 62 v

/-- Heap model for the defensive copy made by `getDict`
(`return [...ShortUID.dict]`): the store holds the shared static dictionary
cell plus every array the method has returned so far; a returned array is
identified by its allocation index. -/
structure DictStore where
  shared : List Char
  allocs : List (List Char)

/-- One `getDict()` call at the heap level: allocate a fresh array whose
content is copied from the shared dictionary and hand back its reference. -/
def getDictAlloc (st : DictStore) : Nat × DictStore :=
  (st.allocs.length, { st with allocs := st.allocs ++ [st.shared] })

/-- Caller-side mutation `arr[idx] = c` of a returned array. -/
def writeRef (st : DictStore) (ref idx : Nat) (c : Char) : DictStore :=
  { st with allocs := st.allocs.set ref ((st.allocs.getD ref []).set idx c) }

/-- Read the current content of a returned array. -/
def readRef (st : DictStore) (ref : Nat) : List Char :=
  st.allocs.getD ref []

/-- One public operation of the interface, for whole-trace statements. -/
inductive Op where
  | counterOp : Op
  | randomOp (arg : LenArg) : Op
  | getCounterOp : Op
  | getDictOp : Op
  | getDictLengthOp : Op
  | resetOp : Op

/-- A returned value of one of the public operations. -/
inductive Value where
  | str (s : String) : Value
  | nat (n : Nat) : Value
  | chars (cs : List Char) : Value
  | unit : Value
deriving DecidableEq

/-- Trace state: the instance plus a cursor into the `Math.random()` oracle
(each `randomUUID` call consumes as many draws as it appends characters). -/
structure RunState where
  gen : ShortUID
  cursor : Nat

/-- One step of the interface: the returned value (an `Except`, since
`randomUUID` can throw), the next state, and the emitted log lines. -/
def stepOp (d : Dict) (draws : Nat → ℚ) (cap : ConsoleCap) (st : RunState) :
    Op → (Except String Value × RunState × List String)
  | .counterOp =>
    (Except.ok (Value.str (counterUUID d st.gen).1),
     { st with gen := (counterUUID d st.gen).2 }, [])
  | .randomOp arg =>
    match randomUUID d (fun j => draws (st.cursor + j)) arg with
    | .ok id => (Except.ok (Value.str id),
        { st with cursor := st.cursor + id.length }, [])
    | .error e => (Except.error e, st, [])
  | .getCounterOp => (Except.ok (Value.nat (getCounter st.gen)), st, [])
  | .getDictOp => (Except.ok (Value.chars (getDict d)), st, [])
  | .getDictLengthOp => (Except.ok (Value.nat (getDictLength d)), st, [])
  | .resetOp =>
    (Except.ok Value.unit, { st with gen := (resetCounterOp cap st.gen).1 },
     (resetCounterOp cap st.gen).2)

/-- Run a trace of operations, collecting the returned values and log lines. -/
def runOps (d : Dict) (draws : Nat → ℚ) (cap : ConsoleCap) (st : RunState) :
    List Op → List (Except String Value) × RunState × List String
  | [] => ([], st, [])
  | op :: ops =>
    ((stepOp d draws cap st op).1 ::
       (runOps d draws cap (stepOp d draws cap st op).2.1 ops).1,
     (runOps d draws cap (stepOp d draws cap st op).2.1 ops).2.1,
     (stepOp d draws cap st op).2.2 ++
       (runOps d draws cap (stepOp d draws cap st op).2.1 ops).2.2)

theorem baseDict_length : baseDict.length = 62 := by decide

theorem baseDict_nodup : baseDict.Nodup := by decide

theorem Dict.length_chars (d : Dict) : d.chars.length = 62 :=
  d.perm.length_eq.trans baseDict_length

theorem Dict.nodup_chars (d : Dict) : d.chars.Nodup :=
  (d.perm.nodup_iff).mpr baseDict_nodup

theorem counterLoop_eq_digits (d : Dict) (v : Nat) :
    counterLoop d v = (lsdDigits v).map (fun r => d.chars.getD r ' ') := by
  induction v using Nat.strong_induction_on with
  | _ v ih =>
    have hlen : d.chars.length = 62 := d.length_chars
    rw [counterLoop, lsdDigits]
    by_cases hq : v / d.chars.length = 0
    · rw [dif_pos hq]
      by_cases hv : v = 0
      · simp [hv]
      · rw [if_neg hv, Nat.digits_def' (by omega : 1 < 62) (Nat.pos_of_ne_zero hv)]
        rw [hlen] at hq
        simp [hq, hlen]
    · rw [dif_neg hq]
      have hv : v ≠ 0 := by
        intro h0
        exact hq (by simp [h0])
      have hrec := ih (v / d.chars.length)
        (Nat.div_lt_self (Nat.pos_of_ne_zero hv) (by omega))
      rw [if_neg hv, Nat.digits_def' (by omega : 1 < 62) (Nat.pos_of_ne_zero hv)]
      rw [hrec, lsdDigits, hlen] at *
      rw [if_neg hq]
      simp [hlen]

theorem lsdDigits_lt (v : Nat) : ∀ r ∈ lsdDigits v, r < 62 := by
  intro r hr
  rw [lsdDigits] at hr
  by_cases hv : v = 0
  · simp [hv] at hr
    omega
  · rw [if_neg hv] at hr
    exact Nat.digits_lt_base (by omega) hr

theorem lsdDigits_injective {v w : Nat} (h : lsdDigits v = lsdDigits w) :
    v = w := by
  rw [lsdDigits, lsdDigits] at h
  by_cases hv : v = 0 <;> by_cases hw : w = 0
  · omega
  · rw [if_pos hv, if_neg hw] at h
    have := congrArg (Nat.ofDigits 62) h
    rw [Nat.ofDigits_digits] at this
    simp [Nat.ofDigits] at this
    omega
  · rw [if_neg hv, if_pos hw] at h
    have := congrArg (Nat.ofDigits 62) h
    rw [Nat.ofDigits_digits] at this
    simp [Nat.ofDigits] at this
    omega
  · rw [if_neg hv, if_neg hw] at h
    have := congrArg (Nat.ofDigits 62) h
    rw [Nat.ofDigits_digits, Nat.ofDigits_digits] at this
    exact this

theorem getD_inj (d : Dict) {i j : Nat} (hi : i < 62) (hj : j < 62)
    (h : d.chars.getD i ' ' = d.chars.getD j ' ') : i = j := by
  have hlen : d.chars.length = 62 := d.length_chars
  have hi2 : i < d.chars.length := by omega
  have hj2 : j < d.chars.length := by omega
  rw [List.getD_eq_getElem _ _ hi2, List.getD_eq_getElem _ _ hj2] at h
  exact (List.Nodup.getElem_inj_iff d.nodup_chars).mp h

theorem map_getD_inj (d : Dict) :
    ∀ l1 l2 : List Nat, (∀ x ∈ l1, x < 62) → (∀ x ∈ l2, x < 62) →
      l1.map (fun r => d.chars.getD r ' ') = l2.map (fun r => d.chars.getD r ' ') →
      l1 = l2 := by
  intro l1
  induction l1 with
  | nil =>
    intro l2 _ _ h
    cases l2 with
    | nil => rfl
    | cons b t => simp at h
  | cons a t ih =>
    intro l2 h1 h2 h
    cases l2 with
    | nil => simp at h
    | cons b t2 =>
      simp only [List.map_cons, List.cons.injEq] at h
      have hab : a = b :=
        getD_inj d (h1 a (by simp)) (h2 b (by simp)) h.1
      have ht : t = t2 :=
        ih t2 (fun x hx => h1 x (by simp [hx])) (fun x hx => h2 x (by simp [hx])) h.2
      rw [hab, ht]

theorem counterLoop_injective (d : Dict) {v w : Nat}
    (h : counterLoop d v = counterLoop d w) : v = w := by
  rw [counterLoop_eq_digits, counterLoop_eq_digits] at h
  exact lsdDigits_injective
    (map_getD_inj d _ _ (lsdDigits_lt v) (lsdDigits_lt w) h)

theorem randomLoop_length (d : Dict) (draws : Nat → ℚ) (q : ℚ) (i : Nat) :
    (randomLoop d draws q i).length = (Int.ceil q - i).toNat := by
  induction i using randomLoop.induct d draws q with
  | case1 i h ih =>
    rw [randomLoop, dif_pos h]
    have hi : (i : ℤ) < Int.ceil q := by
      rw [Int.lt_ceil]
      exact_mod_cast h
    simp only [List.length_cons, ih]
    omega
  | case2 i h =>
    rw [randomLoop, dif_neg h]
    have hc : Int.ceil q ≤ (i : ℤ) := by
      rw [Int.ceil_le]
      push_cast
      exact not_lt.mp h
    simp only [List.length_nil]
    omega

theorem randomIndex_lt (d : Dict) (x : ℚ) :
    randomIndex d x < d.chars.length := by
  have hlen : d.chars.length = 62 := d.length_chars
  rw [randomIndex]
  exact Nat.mod_lt _ (by omega)

theorem getD_mem_of_lt {l : List Char} {i : Nat} (h : i < l.length) (a : Char) :
    l.getD i a ∈ l := by
  rw [List.getD_eq_getElem l a h]
  exact List.getElem_mem h

theorem randomLoop_mem (d : Dict) (draws : Nat → ℚ) (q : ℚ) (i : Nat) :
    ∀ c ∈ randomLoop d draws q i, c ∈ d.chars := by
  induction i using randomLoop.induct d draws q with
  | case1 i h ih =>
    rw [randomLoop, dif_pos h]
    intro c hc
    rcases List.mem_cons.mp hc with h1 | h2
    · rw [h1]
      exact getD_mem_of_lt (randomIndex_lt d (draws i)) ' '
    · exact ih c h2
  | case2 i h =>
    rw [randomLoop, dif_neg h]
    intro c hc
    simp at hc

theorem runCounter_counter (d : Dict) (n : Nat) :
    ∀ s : ShortUID, (runCounter d s n).2.counter = s.counter + n := by
  induction n with
  | zero =>
    intro s
    simp [runCounter]
  | succ n ih =>
    intro s
    rw [runCounter, ih]
    simp [counterUUID]
    omega

theorem runCounter_ids (d : Dict) (n : Nat) :
    ∀ s : ShortUID, (runCounter d s n).1 =
      (List.range n).map (fun i => String.mk (counterLoop d (s.counter + i))) := by
  induction n with
  | zero =>
    intro s
    simp [runCounter]
  | succ n ih =>
    intro s
    rw [runCounter, ih]
    have hfun : (fun i => String.mk (counterLoop d (s.counter + 1 + i))) =
        (fun i => String.mk (counterLoop d (s.counter + (i + 1)))) := by
      funext i
      rw [show s.counter + 1 + i = s.counter + (i + 1) by omega]
    rw [List.range_succ_eq_map, List.map_cons, List.map_map]
    simp only [counterUUID, Function.comp]
    rw [hfun]
    simp

theorem runCounter_nodup (d : Dict) (n : Nat) (s : ShortUID) :
    ((runCounter d s n).1).Nodup := by
  rw [runCounter_ids]
  refine List.Nodup.map ?_ (List.nodup_range n)
  intro i j hij
  have hloop : counterLoop d (s.counter + i) = counterLoop d (s.counter + j) := by
    have := congrArg String.data hij
    simpa using this
  have := counterLoop_injective d hloop
  omega

theorem randomUUID_undef_eq (d : Dict) (draws : Nat → ℚ) :
    randomUUID d draws LenArg.undef =
      Except.ok (String.mk (randomLoop d draws 6 0)) := by
  rw [randomUUID]
  simp only [defaultedLen]
  norm_num [DEFAULT_RANDOM_ID_LEN]

theorem randomUUID_null_eq (d : Dict) (draws : Nat → ℚ) :
    randomUUID d draws LenArg.null =
      Except.error "Invalid UUID Length Provided" := rfl

theorem randomUUID_num_lt (d : Dict) (draws : Nat → ℚ) {q : ℚ} (h : q < 1) :
    randomUUID d draws (LenArg.num q) =
      Except.error "Invalid UUID Length Provided" := by
  rw [randomUUID]
  simp only [defaultedLen]
  simp [h]

theorem randomUUID_num_ge (d : Dict) (draws : Nat → ℚ) {q : ℚ} (h : ¬ q < 1) :
    randomUUID d draws (LenArg.num q) =
      Except.ok (String.mk (randomLoop d draws q 0)) := by
  rw [randomUUID]
  simp only [defaultedLen]
  simp [h]

theorem getD_concat_length {α : Type} (l : List α) (a x : α) :
    (l ++ [a]).getD l.length x = a := by
  rw [List.getD_eq_getElem _ _ (by simp)]
  simp

/-- Claim C1: for every counter value, `counterUUID()` returns the
least-significant-digit-first base-62 positional encoding of the counter over
the shared alphabet (the digit string is `lsdDigits`, built on Mathlib's
`Nat.digits 62`; the first character is `alphabet[counter mod 62]`; counter 0
yields the single-character string `alphabet[0]`), and then increments the
stored counter by exactly 1. -/
theorem counterUUID_lsd_encoding (d : Dict) (s : ShortUID) :
    ((counterUUID d s).1).data =
      (lsdDigits s.counter).map (fun r => d.chars.getD r ' ') ∧
    ((counterUUID d s).1).data.head? =
      some (d.chars.getD (s.counter % 62) ' ') ∧
    (s.counter = 0 → (counterUUID d s).1 = String.mk [d.chars.getD 0 ' ']) ∧
    (counterUUID d s).2.counter = s.counter + 1 := by
  have hlen : d.chars.length = 62 := d.length_chars
  refine ⟨counterLoop_eq_digits d s.counter, ?_, ?_, rfl⟩
  · show (counterLoop d s.counter).head? = _
    rw [counterLoop]
    by_cases hq : s.counter / d.chars.length = 0
    · rw [dif_pos hq, hlen]
      rfl
    · rw [dif_neg hq, hlen]
      rfl
  · intro h0
    show String.mk (counterLoop d s.counter) = _
    rw [h0, counterLoop]
    simp

/-- Claim C1 witness: the very first id of a fresh generator over the
identity-shuffled dictionary is the one-character string made of the
dictionary's first character. -/
theorem counterUUID_lsd_encoding_witness :
    (counterUUID sampleDict { counter := 0, debug := false }).1 =
      String.mk ['0'] := by
  have h := (counterUUID_lsd_encoding sampleDict
    { counter := 0, debug := false }).2.2.1 rfl
  rw [h]
  decide

/-- Claim C2: on a fresh instance, N `counterUUID()` calls yield N
pairwise-distinct strings (the encoding is injective over the counter values
0, ..., N-1) and `getCounter()` equals N afterwards. -/
theorem counterUUID_distinct_ids (d : Dict) (o : Option Bool) (N : Nat) :
    ((runCounter d (mkGen o) N).1).Nodup ∧
    ((runCounter d (mkGen o) N).1).length = N ∧
    getCounter ((runCounter d (mkGen o) N).2) = N := by
  refine ⟨runCounter_nodup d N (mkGen o), ?_, ?_⟩
  · rw [runCounter_ids]
    simp
  · show ((runCounter d (mkGen o) N).2).counter = N
    rw [runCounter_counter]
    simp [mkGen]

/-- Claim C5: the shared alphabet has exactly 62 characters, all unique, and
is a permutation of the digits, lowercase letters and uppercase letters;
`getDictLength()` returns 62, which equals the length of `getDict()`. -/
theorem dict_62_unique (d : Dict) :
    d.chars.length = 62 ∧ d.chars.Nodup ∧
    d.chars.Perm
      ("0123456789abcdefghijklmnopqrstuvwxyzABCDEFGHIJKLMNOPQRSTUVWXYZ".data) ∧
    getDictLength d = 62 ∧ getDictLength d = (getDict d).length := by
  refine ⟨d.length_chars, d.nodup_chars, ?_, d.length_chars, rfl⟩
  have hb : baseDict =
      ("0123456789abcdefghijklmnopqrstuvwxyzABCDEFGHIJKLMNOPQRSTUVWXYZ".data) := by
    decide
  exact hb ▸ d.perm

/-- Claim C8: `resetCounter()` sets the counter to exactly 0 in every state,
so a `counterUUID()` call immediately after it returns the same string as the
first-ever call of a fresh instance, namely `alphabet[0]`. -/
theorem resetCounter_restarts (d : Dict) (cap : ConsoleCap) (s : ShortUID)
    (o : Option Bool) :
    (resetCounterOp cap s).1.counter = 0 ∧
    (counterUUID d (resetCounterOp cap s).1).1 = (counterUUID d (mkGen o)).1 ∧
    (counterUUID d (resetCounterOp cap s).1).1 =
      String.mk [d.chars.getD 0 ' '] := by
  have hz : counterLoop d 0 = [d.chars.getD 0 ' '] := by
    rw [counterLoop]
    simp
  refine ⟨rfl, rfl, ?_⟩
  show String.mk (counterLoop d 0) = _
  rw [hz]

theorem randomUUID_ok_chars (d : Dict) (draws : Nat → ℚ) (arg : LenArg)
    (r : String) (hr : randomUUID d draws arg = Except.ok r) :
    ∀ c ∈ r.data, c ∈ d.chars := by
  cases arg with
  | undef =>
    rw [randomUUID_undef_eq] at hr
    injection hr with h
    subst h
    exact randomLoop_mem d draws 6 0
  | null =>
    rw [randomUUID_null_eq] at hr
    simp at hr
  | num q =>
    by_cases hq : q < 1
    · rw [randomUUID_num_lt d draws hq] at hr
      simp at hr
    · rw [randomUUID_num_ge d draws hq] at hr
      injection hr with h
      subst h
      exact randomLoop_mem d draws q 0

theorem randomLoop_one_eval :
    randomLoop sampleDict (fun _ => 0) 1 0 = ['0'] := by
  rw [randomLoop, dif_pos (by norm_num : ((0 : Nat) : ℚ) < 1)]
  rw [randomLoop, dif_neg (by norm_num : ¬ ((0 + 1 : Nat) : ℚ) < 1)]
  have hidx : randomIndex sampleDict 0 = 0 := by
    rw [randomIndex]
    norm_num
  rw [hidx]
  decide

/-- Claim C3: `randomUUID` raises the invalid-length error if and only if the
requested length is `null` or a number below 1; explicitly passing `undefined`
behaves as omitting the argument and yields a length-6 result; no other
operation of the interface can produce an error. -/
theorem randomUUID_invalid_iff (d : Dict) (draws : Nat → ℚ) :
    (∀ arg : LenArg,
      (∃ e, randomUUID d draws arg = Except.error e) ↔
        (arg = LenArg.null ∨ ∃ q, arg = LenArg.num q ∧ q < 1)) ∧
    (∃ r, randomUUID d draws LenArg.undef = Except.ok r ∧ r.length = 6) ∧
    (∀ (cap : ConsoleCap) (st : RunState) (op : Op) (e : String),
      (stepOp d draws cap st op).1 = Except.error e →
      ∃ arg, op = Op.randomOp arg ∧
        (arg = LenArg.null ∨ ∃ q, arg = LenArg.num q ∧ q < 1)) := by
  refine ⟨?_, ?_, ?_⟩
  · intro arg
    cases arg with
    | undef => simp [randomUUID_undef_eq]
    | null => simp [randomUUID_null_eq]
    | num q =>
      by_cases hq : q < 1
      · simp [randomUUID_num_lt d draws hq, hq]
      · simp [randomUUID_num_ge d draws hq, hq]
  · refine ⟨String.mk (randomLoop d draws 6 0), randomUUID_undef_eq d draws, ?_⟩
    show (randomLoop d draws 6 0).length = 6
    rw [randomLoop_length]
    norm_num
    decide
  · intro cap st op e h
    cases op with
    | counterOp => simp [stepOp] at h
    | randomOp arg =>
      refine ⟨arg, rfl, ?_⟩
      cases hr : randomUUID d (fun j => draws (st.cursor + j)) arg with
      | error e2 =>
        cases arg with
        | undef =>
          rw [randomUUID_undef_eq] at hr
          simp at hr
        | null => exact Or.inl rfl
        | num q =>
          by_cases hq : q < 1
          · exact Or.inr ⟨q, rfl, hq⟩
          · rw [randomUUID_num_ge d _ hq] at hr
            simp at hr
      | ok id =>
        simp [stepOp, hr] at h
    | getCounterOp => simp [stepOp] at h
    | getDictOp => simp [stepOp] at h
    | getDictLengthOp => simp [stepOp] at h
    | resetOp => simp [stepOp] at h

/-- Claim C3 witness: the `null` argument concretely produces the error. -/
theorem randomUUID_invalid_iff_witness :
    ∃ e, randomUUID sampleDict (fun _ => 0) LenArg.null = Except.error e :=
  ((randomUUID_invalid_iff sampleDict (fun _ => 0)).1 LenArg.null).mpr
    (Or.inl rfl)

/-- Claim C4: for every validated integer length n with n at least 1,
`randomUUID(n)` returns a string of length exactly n, and with the argument
omitted it returns a string of length exactly 6. -/
theorem randomUUID_length_exact (d : Dict) (draws : Nat → ℚ) (n : Nat)
    (h : 1 ≤ n) :
    (∃ r, randomUUID d draws (LenArg.num (n : ℚ)) = Except.ok r ∧
      r.length = n) ∧
    (∃ r, randomUUID d draws LenArg.undef = Except.ok r ∧ r.length = 6) := by
  constructor
  · have hq : ¬ ((n : ℚ) < 1) := by
      rw [not_lt]
      exact_mod_cast h
    refine ⟨String.mk (randomLoop d draws (n : ℚ) 0),
      randomUUID_num_ge d draws hq, ?_⟩
    show (randomLoop d draws (n : ℚ) 0).length = n
    rw [randomLoop_length, Int.ceil_natCast]
    omega
  · refine ⟨String.mk (randomLoop d draws 6 0), randomUUID_undef_eq d draws, ?_⟩
    show (randomLoop d draws 6 0).length = 6
    rw [randomLoop_length]
    norm_num
    decide

/-- Claim C4 witness: length 3 at a concrete dictionary and oracle. -/
theorem randomUUID_length_exact_witness :
    1 ≤ 3 ∧
      ((∃ r, randomUUID sampleDict (fun _ => 0) (LenArg.num ((3 : Nat) : ℚ)) =
          Except.ok r ∧ r.length = 3) ∧
       (∃ r, randomUUID sampleDict (fun _ => 0) LenArg.undef = Except.ok r ∧
          r.length = 6)) :=
  ⟨by decide, randomUUID_length_exact sampleDict (fun _ => 0) 3 (by decide)⟩

/-- Claim C10: a non-integer numeric length of at least 1 passes validation
and the returned string has ceil(length) characters, because the integer loop
index is compared against the non-integer bound. -/
theorem randomUUID_noninteger_length (d : Dict) (draws : Nat → ℚ) (q : ℚ)
    (h : 1 ≤ q) :
    ∃ r, randomUUID d draws (LenArg.num q) = Except.ok r ∧
      r.length = (Int.ceil q).toNat := by
  have hq : ¬ q < 1 := not_lt.mpr h
  refine ⟨String.mk (randomLoop d draws q 0), randomUUID_num_ge d draws hq, ?_⟩
  show (randomLoop d draws q 0).length = _
  rw [randomLoop_length]
  simp

/-- Claim C10 witness: length 2.5 is accepted and yields 3 characters. -/
theorem randomUUID_noninteger_length_witness :
    (1 : ℚ) ≤ 5 / 2 ∧ (Int.ceil ((5 : ℚ) / 2)).toNat = 3 ∧
    (∃ r, randomUUID sampleDict (fun _ => 0) (LenArg.num (5 / 2)) =
      Except.ok r ∧ r.length = (Int.ceil ((5 : ℚ) / 2)).toNat) := by
  refine ⟨by norm_num, ?_,
    randomUUID_noninteger_length sampleDict (fun _ => 0) (5 / 2) (by norm_num)⟩
  have hc : Int.ceil ((5 : ℚ) / 2) = 3 := by
    rw [Int.ceil_eq_iff]
    norm_num
  rw [hc]
  rfl

/-- Claim C7: a `randomUUID` step never mutates the instance counter, and
every character of a successful result is a member of the alphabet returned
by `getDict()`. -/
theorem randomUUID_frame (d : Dict) (draws : Nat → ℚ) (cap : ConsoleCap)
    (st : RunState) (arg : LenArg) :
    getCounter ((stepOp d draws cap st (Op.randomOp arg)).2.1.gen) =
      getCounter st.gen ∧
    (∀ r, randomUUID d draws arg = Except.ok r →
      ∀ c ∈ r.data, c ∈ getDict d) := by
  constructor
  · cases hr : randomUUID d (fun j => draws (st.cursor + j)) arg with
    | error e => simp [stepOp, hr]
    | ok id => simp [stepOp, hr]
  · intro r hr
    exact randomUUID_ok_chars d draws arg r hr

/-- Claim C7 witness: a concrete `randomUUID` step leaves the counter at 5,
and the character of a concrete successful result is in the dictionary. -/
theorem randomUUID_frame_witness :
    getCounter ((stepOp sampleDict (fun _ => 0) ConsoleCap.present
      ⟨{ counter := 5, debug := false }, 0⟩
      (Op.randomOp (LenArg.num 1))).2.1.gen) = 5 ∧
    '0' ∈ getDict sampleDict := by
  have h := randomUUID_frame sampleDict (fun _ => 0) ConsoleCap.present
    ⟨{ counter := 5, debug := false }, 0⟩ (LenArg.num 1)
  have hok : randomUUID sampleDict (fun _ => 0) (LenArg.num 1) =
      Except.ok (String.mk ['0']) := by
    rw [randomUUID_num_ge sampleDict (fun _ => 0) (by norm_num : ¬ (1:ℚ) < 1)]
    rw [randomLoop_one_eval]
  exact ⟨h.1, h.2 (String.mk ['0']) hok '0' (by simp)⟩

/-- Claim C6: `getDict()` returns a defensive copy — in the heap model,
consecutive calls return distinct references with content equal to the shared
alphabet; writing into a returned array leaves the shared alphabet unchanged,
leaves the content of any later `getDict()` call unchanged, and leaves the
output of any generation function of the shared alphabet unchanged. -/
theorem getDict_defensive_copy (st : DictStore) (idx : Nat) (c : Char) :
    (getDictAlloc st).1 ≠ (getDictAlloc (getDictAlloc st).2).1 ∧
    readRef (getDictAlloc st).2 (getDictAlloc st).1 = st.shared ∧
    readRef (getDictAlloc (getDictAlloc st).2).2
      (getDictAlloc (getDictAlloc st).2).1 = st.shared ∧
    (writeRef (getDictAlloc st).2 (getDictAlloc st).1 idx c).shared =
      st.shared ∧
    readRef
      (getDictAlloc (writeRef (getDictAlloc st).2 (getDictAlloc st).1 idx c)).2
      (getDictAlloc (writeRef (getDictAlloc st).2 (getDictAlloc st).1 idx c)).1
      = st.shared ∧
    (∀ f : List Char → String,
      f (writeRef (getDictAlloc st).2 (getDictAlloc st).1 idx c).shared =
        f st.shared) := by
  refine ⟨?_, ?_, ?_, rfl, ?_, fun f => rfl⟩
  · show st.allocs.length ≠ (st.allocs ++ [st.shared]).length
    simp
  · exact getD_concat_length st.allocs st.shared []
  · exact getD_concat_length (st.allocs ++ [st.shared]) st.shared []
  · exact getD_concat_length _ st.shared []

theorem stepOp_indep (d : Dict) (draws : Nat → ℚ) (cap cap2 : ConsoleCap)
    (st st2 : RunState) (op : Op)
    (hc : st.gen.counter = st2.gen.counter) (hcur : st.cursor = st2.cursor) :
    (stepOp d draws cap st op).1 = (stepOp d draws cap2 st2 op).1 ∧
    (stepOp d draws cap st op).2.1.gen.counter =
      (stepOp d draws cap2 st2 op).2.1.gen.counter ∧
    (stepOp d draws cap st op).2.1.cursor =
      (stepOp d draws cap2 st2 op).2.1.cursor := by
  cases op with
  | counterOp =>
    refine ⟨?_, ?_, ?_⟩ <;> simp [stepOp, counterUUID, hc, hcur]
  | randomOp arg =>
    have hsame : randomUUID d (fun j => draws (st.cursor + j)) arg =
        randomUUID d (fun j => draws (st2.cursor + j)) arg := by
      rw [hcur]
    cases hr : randomUUID d (fun j => draws (st2.cursor + j)) arg with
    | error e =>
      refine ⟨?_, ?_, ?_⟩ <;> simp [stepOp, hsame, hr, hc, hcur]
    | ok id =>
      refine ⟨?_, ?_, ?_⟩ <;> simp [stepOp, hsame, hr, hc, hcur]
  | getCounterOp =>
    refine ⟨?_, ?_, ?_⟩ <;> simp [stepOp, getCounter, hc, hcur]
  | getDictOp =>
    refine ⟨?_, ?_, ?_⟩ <;> simp [stepOp, hc, hcur]
  | getDictLengthOp =>
    refine ⟨?_, ?_, ?_⟩ <;> simp [stepOp, hc, hcur]
  | resetOp =>
    refine ⟨?_, ?_, ?_⟩ <;>
      simp [stepOp, resetCounterOp, resetCounter, hc, hcur]

theorem runOps_indep (d : Dict) (draws : Nat → ℚ) (cap cap2 : ConsoleCap)
    (ops : List Op) :
    ∀ st st2 : RunState, st.gen.counter = st2.gen.counter →
      st.cursor = st2.cursor →
      (runOps d draws cap st ops).1 = (runOps d draws cap2 st2 ops).1 := by
  induction ops with
  | nil =>
    intro st st2 _ _
    rfl
  | cons op ops ih =>
    intro st st2 hc hcur
    have h := stepOp_indep d draws cap cap2 st st2 op hc hcur
    simp only [runOps]
    rw [h.1, ih _ _ h.2.1 h.2.2]

/-- Claim C9: the debug logging side-channel is unobservable in return values
and never raises — for every operation trace, a generator constructed with any
debug option and any console capability returns exactly the same values as one
constructed with any other, and when the console capability (or its log
member) is absent the log call yields nothing instead of failing. -/
theorem debug_unobservable (d : Dict) (draws : Nat → ℚ)
    (cap cap2 : ConsoleCap) (o o2 : Option Bool) (ops : List Op) :
    (runOps d draws cap ⟨(mkShortUID d cap o).1, 0⟩ ops).1 =
      (runOps d draws cap2 ⟨(mkShortUID d cap2 o2).1, 0⟩ ops).1 ∧
    (∀ b msg, logFn ConsoleCap.absent b msg = [] ∧
      logFn ConsoleCap.noLog b msg = []) := by
  constructor
  · exact runOps_indep d draws cap cap2 ops _ _ rfl rfl
  · intro b msg
    constructor <;> cases b <;> rfl

/-- Claim C6 witness: at a concrete store, the array returned by the first
`getDict()` call has exactly the shared alphabet as content. -/
theorem getDict_defensive_copy_witness :
    readRef (getDictAlloc ⟨baseDict, []⟩).2 (getDictAlloc ⟨baseDict, []⟩).1 =
      baseDict :=
  (getDict_defensive_copy ⟨baseDict, []⟩ 0 'x').2.1
